import Mathlib

/-!
Shallow embedding of `mercuryITC.py` (Oxford Mercury ITC client driver).

The program is a Python 2 driver with two transport variants:
* `temperatureController` (serial): persistent connection; `readValue` sends
  one command and reads one line; `setValue` sends `SET:`-prefixed payload and
  reads/discards one acknowledgement line; `getSignal` looks up the device
  address, issues a READ, takes the last `:`-separated field of the response
  and decodes an SI-prefixed numeral.
* `temperatureControllerEthernet` (per-call TCP): `readValue` retries up to 5
  times with a 1 s back-off after each failed attempt and terminates the
  process (`sys.exit`) when all 5 fail; `writeValue` has no retry at all.

Machine floats are modelled exactly over `Rat`: Python's `float(...)` literal
parser becomes an executable decimal/exponent parser returning `Option Rat`
(whitespace stripping and the `inf`/`nan` spellings accepted by Python are not
modelled; no claim depends on them).  `sys.exit` / raised exceptions become
explicit outcome constructors.  Transport behaviour is modelled by explicit
per-attempt environments (which step of an attempt fails) and event traces.
-/

namespace MercuryITC

/-! ## Value codec: Python `float` over ℚ -/

/-- Numeric value of a list of decimal digit characters, most significant first. -/
def digitsVal (ds : List Char) : Nat :=
  ds.foldl (fun a c => 10 * a + (c.toNat - 48)) 0

/-- `10 ^ e` over ℚ for an integer exponent. -/
def pow10 : Int → Rat
  | Int.ofNat n => (10 : Rat) ^ n
  | Int.negSucc n => 1 / (10 : Rat) ^ (n + 1)

/-- Parse the part of a float literal after `e`/`E`: optional sign, then at
least one digit, then end of string. -/
def parseExpTail (l : List Char) : Option Int :=
  let (sgn, l') : Int × List Char :=
    match l with
    | '+' :: rest => (1, rest)
    | '-' :: rest => (-1, rest)
    | _ => (1, l)
  let ds := l'.takeWhile Char.isDigit
  let rest := l'.dropWhile Char.isDigit
  if ds.isEmpty ∨ ¬ rest.isEmpty then none
  else some (sgn * (digitsVal ds : Int))

/-- Parse an optional exponent suffix; the empty string means exponent `0`,
anything else must be `e`/`E` followed by a well-formed exponent. -/
def parseExpOpt (l : List Char) : Option Int :=
  match l with
  | [] => some 0
  | 'e' :: rest => parseExpTail rest
  | 'E' :: rest => parseExpTail rest
  | _ => none

/-- Fractional value of the digit list after the decimal point. -/
def fracVal (ds : List Char) : Rat :=
  (digitsVal ds : Rat) / (10 : Rat) ^ ds.length

/-- Core of Python's `float(...)`: optional sign, then either
`digits [. digits] [exp]` or `. digits [exp]`. -/
def parseFloatCore (l : List Char) : Option Rat :=
  let (sgn, l') : Rat × List Char :=
    match l with
    | '+' :: rest => (1, rest)
    | '-' :: rest => (-1, rest)
    | _ => (1, l)
  let intPart := l'.takeWhile Char.isDigit
  let rest := l'.dropWhile Char.isDigit
  match rest with
  | '.' :: rest2 =>
    let fracPart := rest2.takeWhile Char.isDigit
    let rest3 := rest2.dropWhile Char.isDigit
    if intPart.isEmpty ∧ fracPart.isEmpty then none
    else
      match parseExpOpt rest3 with
      | none => none
      | some e => some (sgn * ((digitsVal intPart : Rat) + fracVal fracPart) * pow10 e)
  | _ =>
    if intPart.isEmpty then none
    else
      match parseExpOpt rest with
      | none => none
      | some e => some (sgn * (digitsVal intPart : Rat) * pow10 e)

/-- Python's `float(s)` modelled exactly over ℚ. -/
def parseFloat (s : String) : Option Rat :=
  parseFloatCore s.data

/-! ## SI prefix table and the decode step of `getSignal` (lines 61-72) -/

/-- The `"\xb5"` (micro sign) key of the source's dictionary. -/
def microChar : Char := Char.ofNat 181

/-- The `siPrefixes` dictionary of `getSignal`:
`{"M": 1e6, "k": 1e3, "m": 1e-3, "\xb5": 1e-6, "n": 1e-9, "p": 1e-12}`. -/
def siFactors : List (Char × Rat) :=
  [('M', 1000000), ('k', 1000), ('m', 1 / 1000), (microChar, 1 / 1000000),
   ('n', 1 / 1000000000), ('p', 1 / 1000000000000)]

/-- Dictionary lookup (`siPrefixes[ans[-2]]`); `none` models `KeyError`. -/
def lookupFactor (c : Char) : List (Char × Rat) → Option Rat
  | [] => none
  | (k, f) :: rest => if c = k then some f else lookupFactor c rest

/-- Outcome of the decode step of `getSignal`. -/
inductive DecodeOutcome where
  /-- A float value is returned. -/
  | ok (v : Rat)
  /-- The `except` branch: any failure inside the `try` is caught, the raw
  token `ans` is printed and `ValueError` is raised. -/
  | decodeError (token : String)
  /-- `float(ans[:-2])` raised `ValueError` in the digit branch, uncaught. -/
  | valueError
  /-- `ans[-2]` raised `IndexError` (token shorter than 2 characters). -/
  | indexError
deriving DecidableEq, Repr

/-- Python `ans[-2]`: the second-to-last character, `IndexError` (`none`) when
the string has fewer than 2 characters. -/
def secondToLast? (s : String) : Option Char :=
  match s.data.reverse with
  | _ :: c :: _ => some c
  | _ => none

/-- Python `ans[:-2]`: drop the final two characters. -/
def dropLast2 (s : String) : String :=
  ⟨s.data.dropLast.dropLast⟩

/-- The decode step of `getSignal` (`mercuryITC.py` lines 63-72):
if `ans[-2].isdigit()` return `float(ans[:-2])`, else try
`float(ans[:-2]) * siPrefixes[ans[-2]]`, catching any failure by printing the
raw token and raising `ValueError`. -/
def decode (ans : String) : DecodeOutcome :=
  match secondToLast? ans with
  | none => .indexError
  | some c =>
    if c.isDigit then
      match parseFloat (dropLast2 ans) with
      | some x => .ok x
      | none => .valueError
    else
      match parseFloat (dropLast2 ans), lookupFactor c siFactors with
      | some x, some f => .ok (x * f)
      | _, _ => .decodeError ans

/-! ## Response parsing: Python `.split(":")[-1]` (line 61) -/

/-- Python's `str.split(c)` for a one-character separator: splits at every
occurrence, keeping empty fields; the result is never empty. -/
def splitCh (c : Char) : List Char → List (List Char)
  | [] => [[]]
  | a :: rest =>
    if a = c then [] :: splitCh c rest
    else
      match splitCh c rest with
      | [] => [[a]]
      | f :: fs => (a :: f) :: fs

/-- Python `fields[-1]`: the last element of a (never empty) field list. -/
def lastField : List (List Char) → List Char
  | [] => []
  | [f] => f
  | _ :: f :: fs => lastField (f :: fs)

/-- `raw.split(":")[-1]`: the final colon-delimited field of a response. -/
def parseResponse (raw : String) : String :=
  ⟨lastField (splitCh ':' raw.data)⟩

/-! ## Device registry (`defineDevices`, lines 24-26) -/

/-- The `devices` dictionary of `defineDevices`. -/
def devices : List (String × String) :=
  [("db7", "DEV:DB7.T1:TEMP"), ("db6", "DEV:DB6.T1:TEMP"), ("mb1", "DEV:MB1.T1:TEMP")]

/-- Dictionary lookup `self.devices[device]`; `none` models `KeyError`. -/
def lookupDevice (k : String) : List (String × String) → Option String
  | [] => none
  | (key, addr) :: rest => if k = key then some addr else lookupDevice k rest

/-- Outcome of a `getSignal` call, over either transport. -/
inductive GetSignalOutcome where
  /-- The decoded float is returned. -/
  | ok (v : Rat)
  /-- `KeyError` from `self.devices[device]`, carrying the bad key. -/
  | unknownDevice (key : String)
  /-- `ValueError` raised by the decode step after printing the raw token. -/
  | decodeError (token : String)
  /-- Uncaught `ValueError` from `float(...)` in the digit branch. -/
  | valueError
  /-- `IndexError` from `ans[-2]` on a short payload. -/
  | indexError
  /-- `sys.exit` after 5 failed communication attempts (Ethernet variant). -/
  | commFatal
deriving DecidableEq, Repr

/-- Reinterpret a decode outcome as a `getSignal` outcome. -/
def liftDecode : DecodeOutcome → GetSignalOutcome
  | .ok v => .ok v
  | .decodeError t => .decodeError t
  | .valueError => .valueError
  | .indexError => .indexError

/-! ## Serial transport (`temperatureController`, lines 36-48)

The serial connection is persistent; each operation is modelled by the trace
of send / receive-line events it performs on that connection. -/

/-- One event on the persistent serial connection. -/
inductive SerialEvent where
  /-- `self.ser.write(cmd)` — `cmd` already carries the terminator. -/
  | send (cmd : String)
  /-- `self.ser.readline()` (one line read, then trailing bytes flushed). -/
  | recvLine
deriving DecidableEq, Repr

/-- `writeValue(v)` (line 36-38): write `v + "\n\r"`, then sleep. -/
def writeValueTrace (v : String) : List SerialEvent :=
  [.send (v ++ "\n\r")]

/-- `readValue(v, readPref)` (lines 40-44): `writeValue(readPref + v)`, then
read one line (rstripped) and flush. -/
def readValueTrace (readPref v : String) : List SerialEvent :=
  writeValueTrace (readPref ++ v) ++ [.recvLine]

/-- `setValue(v)` (lines 46-48): `writeValue("SET:" + v)`, then read and
discard one acknowledgement line. -/
def setValueTrace (v : String) : List SerialEvent :=
  writeValueTrace ("SET:" ++ v) ++ [.recvLine]

/-- A serial trace is strictly alternating: every send is immediately
followed by exactly one receive-line before the next send. -/
def alternating : List SerialEvent → Bool
  | [] => true
  | .send _ :: .recvLine :: rest => alternating rest
  | _ => false

/-- `getSignal(device, signal)` on the serial variant (lines 54-72), against a
response oracle `respond` mapping the full command line to the rstripped
response line.  Returns the serial trace and the outcome. -/
def getSignalSerial (device signal : String) (respond : String → String) :
    List SerialEvent × GetSignalOutcome :=
  match lookupDevice device devices with
  | none => ([], .unknownDevice device)
  | some addr =>
    let cmd := addr ++ ":SIG:" ++ signal
    let raw := respond ("READ:" ++ cmd)
    (readValueTrace "READ:" cmd, liftDecode (decode (parseResponse raw)))

/-! ## Ethernet transport (`temperatureControllerEthernet`, lines 182-256) -/

/-- What the environment does to one connection attempt: whether
`socket.socket(...)` raises, whether `sock.connect(...)` raises, whether
`sock.sendall(...)` raises, and what `sock.recv(4096).rstrip()` yields
(`none` models a raised exception on receive).  `sock.close()` is modelled as
never failing. -/
structure AttemptEnv where
  createFails : Bool
  connectFails : Bool
  sendFails : Bool
  recvResult : Option String
deriving DecidableEq, Repr

/-- Net effect of one iteration of the `for retry in range(5)` loop of
`readValue` (lines 217-240): a socket-creation failure is printed and then
`sock.connect` raises on the unusable socket; a connect failure raises; a
send failure is caught, printed, and execution falls through to `recv`; the
attempt yields data exactly when `recv` succeeds. -/
def attemptOutcome (a : AttemptEnv) : Option String :=
  if a.createFails ∨ a.connectFails then none
  else a.recvResult

/-- One event of the per-call (Ethernet) transport; `cid` identifies the
connection (one fresh connection per attempt, numbered by attempt index). -/
inductive EthEvent where
  /-- A TCP connection `cid` is established. -/
  | connect (cid : Nat)
  /-- The command line is sent over connection `cid`. -/
  | send (cid : Nat) (cmd : String)
  /-- A response is received over connection `cid`. -/
  | recv (cid : Nat) (data : String)
  /-- Connection `cid` is closed. -/
  | close (cid : Nat)
  /-- `time.sleep(1)` in the `except` handler after a failed attempt. -/
  | backoff
deriving DecidableEq, Repr

/-- Events performed by attempt number `i` of `readValue` for command `cmd`
under environment `a`. -/
def readAttemptEvents (cmd : String) (i : Nat) (a : AttemptEnv) : List EthEvent :=
  if a.createFails ∨ a.connectFails then [.backoff]
  else
    EthEvent.connect i ::
      ((if a.sendFails then [] else [EthEvent.send i cmd]) ++
        match a.recvResult with
        | some d => [EthEvent.recv i d, EthEvent.close i]
        | none => [EthEvent.backoff])

/-- The retry loop of `readValue` (lines 217-240) over the remaining attempt
indices: on the first successful attempt the loop breaks with
`some (index, data)`; when all remaining attempts fail the result is `none`
(`data` stayed `None`). -/
def readEthRun (cmd : String) (attempts : Nat → AttemptEnv) :
    List Nat → List EthEvent × Option (Nat × String)
  | [] => ([], none)
  | i :: rest =>
    match attemptOutcome (attempts i) with
    | some d => (readAttemptEvents cmd i (attempts i), some (i, d))
    | none =>
      let r := readEthRun cmd attempts rest
      (readAttemptEvents cmd i (attempts i) ++ r.1, r.2)

/-- `temperatureControllerEthernet.readValue` (lines 211-246): the loop
`for retry in range(5)`; `some (k, d)` means data `d` was returned from
attempt `k`; `none` means `data` was still `None` after the loop, so the
process printed "Communication failed 5 times, aborting" and called
`sys.exit()`. -/
def readValueEth (cmd : String) (attempts : Nat → AttemptEnv) :
    List EthEvent × Option (Nat × String) :=
  readEthRun cmd attempts [0, 1, 2, 3, 4]

/-- Number of connection attempts performed by `readValue`. -/
def ethAttemptCount (cmd : String) (attempts : Nat → AttemptEnv) : Nat :=
  match (readValueEth cmd attempts).2 with
  | some (k, _) => k + 1
  | none => 5

/-- Number of back-off sleeps in a trace. -/
def backoffCount (tr : List EthEvent) : Nat :=
  tr.countP fun e => match e with | .backoff => true | _ => false

/-- `getSignal` as inherited by the Ethernet variant: device lookup, then
`readValue` with the 5-attempt loop, then split-on-colon and decode. -/
def getSignalEth (device signal : String) (attempts : Nat → AttemptEnv) :
    List EthEvent × GetSignalOutcome :=
  match lookupDevice device devices with
  | none => ([], .unknownDevice device)
  | some addr =>
    let cmd := "READ:" ++ addr ++ ":SIG:" ++ signal ++ "\r\n"
    let r := readValueEth cmd attempts
    match r.2 with
    | none => (r.1, .commFatal)
    | some (_, data) => (r.1, liftDecode (decode (parseResponse data)))

/-- Outcome of `temperatureControllerEthernet.writeValue` (lines 191-209). -/
inductive WriteOutcome where
  /-- The command was sent and the socket closed. -/
  | done
  /-- `socket.socket` raised: "Failed to create socket" printed, `sys.exit()`. -/
  | exitCreate
  /-- `sock.connect` raised `socket.error`, uncaught: propagates to caller. -/
  | exnConnect
  /-- `sock.sendall` raised: "Send failed" printed, `sys.exit()`. -/
  | exitSend
deriving DecidableEq, Repr

/-- `temperatureControllerEthernet.writeValue` (lines 191-209): a single
connection, no loop, no retry, no back-off. -/
def writeValueEth (a : AttemptEnv) : WriteOutcome :=
  if a.createFails then .exitCreate
  else if a.connectFails then .exnConnect
  else if a.sendFails then .exitSend
  else .done

/-- Wire events of `writeValueEth` for command `cmd` (terminator included). -/
def writeTraceEth (cmd : String) (a : AttemptEnv) : List EthEvent :=
  if a.createFails then []
  else if a.connectFails then []
  else if a.sendFails then [.connect 0]
  else [.connect 0, .send 0 (cmd ++ "\r\n"), .close 0]

/-- `temperatureControllerEthernet.setValue` (lines 252-253): writes
`"SET:" + value` via `writeValue`; no acknowledgement is read. -/
def setValueEth (v : String) (a : AttemptEnv) : List EthEvent × WriteOutcome :=
  (writeTraceEth ("SET:" ++ v) a, writeValueEth a)

/-! ### Transport stubs from the spec's testable properties -/

/-- Stub: every attempt fails (socket creation raises each time). -/
def attAllFail : Nat → AttemptEnv :=
  fun _ => ⟨true, false, false, none⟩

/-- Stub: the first 4 attempts fail, the 5th succeeds with `"7.000000mV"`. -/
def attFourFail : Nat → AttemptEnv :=
  fun i => if i < 4 then ⟨true, false, false, none⟩
           else ⟨false, false, false, some "7.000000mV"⟩

/-- Stub: every attempt succeeds with `"7.000000mV"`. -/
def attGood : Nat → AttemptEnv :=
  fun _ => ⟨false, false, false, some "7.000000mV"⟩

/-! ## Helper lemmas -/

theorem splitCh_ne_nil (c : Char) : ∀ l : List Char, splitCh c l ≠ []
  | [] => by simp [splitCh]
  | a :: rest => by
    by_cases h : a = c
    · simp [splitCh, h]
    · cases hs : splitCh c rest <;> simp [splitCh, h, hs]

theorem lastField_cons_of_ne_nil (f : List Char) {t : List (List Char)}
    (h : t ≠ []) : lastField (f :: t) = lastField t := by
  cases t with
  | nil => exact absurd rfl h
  | cons g gs => rfl

theorem splitCh_two_le (c : Char) (l2 : List Char) :
    ∀ l1 : List Char, 2 ≤ (splitCh c (l1 ++ c :: l2)).length
  | [] => by
    have h := splitCh_ne_nil c l2
    cases hs : splitCh c l2 with
    | nil => exact absurd hs h
    | cons f fs => simp [splitCh, hs]
  | a :: l1 => by
    have ih := splitCh_two_le c l2 l1
    by_cases h : a = c
    · have h' := splitCh_ne_nil c (l1 ++ c :: l2)
      cases hs : splitCh c (l1 ++ c :: l2) with
      | nil => exact absurd hs h'
      | cons f fs => simp [splitCh, h, hs]
    · cases hs : splitCh c (l1 ++ c :: l2) with
      | nil => exact absurd hs (splitCh_ne_nil c _)
      | cons f fs =>
        rw [hs] at ih
        cases fs with
        | nil => simp at ih
        | cons g gs => simp [splitCh, h, hs]

theorem lastField_splitCh_sep (c : Char) (l2 : List Char) :
    ∀ l1 : List Char,
      lastField (splitCh c (l1 ++ c :: l2)) = lastField (splitCh c l2)
  | [] => by
    have h := splitCh_ne_nil c l2
    simp only [List.nil_append, splitCh, if_pos rfl]
    exact lastField_cons_of_ne_nil [] h
  | a :: l1 => by
    have ih := lastField_splitCh_sep c l2 l1
    by_cases h : a = c
    · subst h
      rw [List.cons_append,
        show splitCh a (a :: (l1 ++ a :: l2)) = [] :: splitCh a (l1 ++ a :: l2) from by
          simp [splitCh]]
      rw [lastField_cons_of_ne_nil [] (splitCh_ne_nil a _), ih]
    · have h2 := splitCh_two_le c l2 l1
      cases hs : splitCh c (l1 ++ c :: l2) with
      | nil => exact absurd hs (splitCh_ne_nil c _)
      | cons f fs =>
        rw [hs] at ih h2
        cases fs with
        | nil => simp at h2
        | cons g gs =>
          rw [List.cons_append,
            show splitCh c (a :: (l1 ++ c :: l2)) = (a :: f) :: g :: gs from by
              simp [splitCh, h, hs]]
          rw [lastField_cons_of_ne_nil (a :: f) (by simp)]
          rw [← lastField_cons_of_ne_nil f (t := g :: gs) (by simp), ih]

theorem splitCh_no_sep (c : Char) : ∀ l : List Char, c ∉ l → splitCh c l = [l]
  | [], _ => by simp [splitCh]
  | a :: rest, h => by
    have ha : ¬ a = c := fun hc => h (by simp [hc])
    have hr : splitCh c rest = [rest] :=
      splitCh_no_sep c rest (fun hc => h (List.mem_cons_of_mem a hc))
    simp [splitCh, ha, hr]

theorem alternating_append {t2 : List SerialEvent} (h2 : alternating t2 = true) :
    ∀ t1 : List SerialEvent, alternating t1 = true → alternating (t1 ++ t2) = true
  | [], _ => h2
  | .send c :: .recvLine :: rest, h1 => by
    simp only [alternating] at h1
    simpa [alternating] using alternating_append h2 rest h1
  | .send c :: .send c' :: rest, h1 => by simp [alternating] at h1
  | [.send c], h1 => by simp [alternating] at h1
  | .recvLine :: rest, h1 => by simp [alternating] at h1

theorem readEthRun_none_iff (cmd : String) (att : Nat → AttemptEnv) :
    ∀ l : List Nat,
      (readEthRun cmd att l).2 = none ↔ ∀ i ∈ l, attemptOutcome (att i) = none
  | [] => by simp [readEthRun]
  | i :: rest => by
    have ih := readEthRun_none_iff cmd att rest
    cases h : attemptOutcome (att i) with
    | some d =>
      simp only [readEthRun, h]
      constructor
      · intro hc; exact absurd hc (by simp)
      · intro hall; exact absurd (hall i (by simp)) (by simp [h])
    | none =>
      simp only [readEthRun, h]
      constructor
      · intro hn i' hi'
        rcases List.mem_cons.mp hi' with rfl | hmem
        · exact h
        · exact (ih.mp hn) i' hmem
      · intro hall
        exact ih.mpr fun i' hi' => hall i' (List.mem_cons_of_mem i hi')

theorem readEthRun_some (cmd : String) (att : Nat → AttemptEnv) :
    ∀ (l : List Nat) (tr : List EthEvent) (k : Nat) (d : String),
      readEthRun cmd att l = (tr, some (k, d)) →
      k ∈ l ∧ attemptOutcome (att k) = some d ∧ EthEvent.recv k d ∈ tr ∧
        ((att k).sendFails = false → EthEvent.send k cmd ∈ tr)
  | [], tr, k, d => by simp [readEthRun]
  | i :: rest, tr, k, d => by
    intro h
    cases ho : attemptOutcome (att i) with
    | some d' =>
      simp only [readEthRun, ho] at h
      obtain ⟨htr, hkd⟩ := Prod.mk.injEq .. ▸ h
      obtain ⟨rfl, rfl⟩ : k = i ∧ d = d' := by
        have := hkd
        simp at this
        exact ⟨this.1.symm, this.2.symm⟩
      have hcc : (att k).createFails = false ∧ (att k).connectFails = false ∧
          (att k).recvResult = some d := by
        unfold attemptOutcome at ho
        by_cases hc : (att k).createFails ∨ (att k).connectFails
        · simp [hc] at ho
        · push_neg at hc
          simp only [Bool.not_eq_true] at hc
          refine ⟨hc.1, hc.2, ?_⟩
          simpa [hc.1, hc.2] using ho
      subst htr
      refine ⟨by simp, ho, ?_, ?_⟩
      · simp [readAttemptEvents, hcc.1, hcc.2.1, hcc.2.2]
      · intro hs
        simp [readAttemptEvents, hcc.1, hcc.2.1, hcc.2.2, hs]
    | none =>
      simp only [readEthRun, ho] at h
      obtain ⟨htr, hres⟩ := Prod.mk.injEq .. ▸ h
      have ih := readEthRun_some cmd att rest
        (readEthRun cmd att rest).1 k d (by rw [← hres])
      subst htr
      refine ⟨List.mem_cons_of_mem i ih.1, ih.2.1,
        List.mem_append_right _ ih.2.2.1, fun hs => List.mem_append_right _ (ih.2.2.2 hs)⟩

theorem backoff_one_of_fail (cmd : String) (i : Nat) (a : AttemptEnv)
    (h : attemptOutcome a = none) :
    backoffCount (readAttemptEvents cmd i a) = 1 := by
  unfold attemptOutcome at h
  unfold readAttemptEvents backoffCount
  by_cases hc : a.createFails ∨ a.connectFails
  · simp [hc]
  · have hr : a.recvResult = none := by simpa [hc] using h
    simp [hc, hr]

theorem backoff_zero_of_ok (cmd : String) (i : Nat) (a : AttemptEnv) (d : String)
    (h : attemptOutcome a = some d) :
    backoffCount (readAttemptEvents cmd i a) = 0 := by
  unfold attemptOutcome at h
  by_cases hc : a.createFails ∨ a.connectFails
  · simp [hc] at h
  · have hr : a.recvResult = some d := by simpa [hc] using h
    unfold readAttemptEvents backoffCount
    simp [hc, hr]

theorem backoffCount_append (a b : List EthEvent) :
    backoffCount (a ++ b) = backoffCount a + backoffCount b := by
  simp [backoffCount, List.countP_append]

theorem decode_si (ans : String) (c : Char) (x f : Rat)
    (h1 : secondToLast? ans = some c) (h2 : c.isDigit = false)
    (h3 : parseFloat (dropLast2 ans) = some x)
    (h4 : lookupFactor c siFactors = some f) :
    decode ans = .ok (x * f) := by
  simp [decode, h1, h2, h3, h4]

/-! ## Claims -/

/-- C1: for every recognized SI prefix character `p` (with factor `f` in the
`siPrefixes` table) and every mantissa rendering `s` that `float` parses to
`x`, the decode step of `getSignal` maps `s + p + unit` to `x * f`: it is a
left inverse of the instrument's prefix encoding for every listed prefix. -/
theorem c1_decode_inverts_si_encoding (s : String) (x : Rat) (p : Char)
    (f : Rat) (u : Char) (hp : (p, f) ∈ siFactors)
    (hx : parseFloat s = some x) :
    decode ((s.push p).push u) = .ok (x * f) := by
  have hdata : ((s.push p).push u).data = s.data ++ [p, u] := by
    show (s.data ++ [p]) ++ [u] = s.data ++ [p, u]
    simp
  have h2 : secondToLast? ((s.push p).push u) = some p := by
    unfold secondToLast?
    rw [hdata, show (s.data ++ [p, u]).reverse = u :: p :: s.data.reverse from by simp]
  have h3 : dropLast2 ((s.push p).push u) = s := by
    unfold dropLast2
    rw [hdata, show s.data ++ [p, u] = (s.data ++ [p]) ++ [u] from by simp,
      List.dropLast_concat, List.dropLast_concat]
  have hfl : parseFloat (dropLast2 ((s.push p).push u)) = some x := by
    rw [h3]; exact hx
  simp only [siFactors, microChar, List.mem_cons, List.not_mem_nil, or_false,
    Prod.mk.injEq] at hp
  rcases hp with ⟨rfl, rfl⟩ | ⟨rfl, rfl⟩ | ⟨rfl, rfl⟩ | ⟨rfl, rfl⟩ |
    ⟨rfl, rfl⟩ | ⟨rfl, rfl⟩ <;>
    exact decode_si _ _ _ _ h2 rfl hfl rfl

/-- C1 witness: decoding `"7.000000" + 'm' + 'V'` yields `7 * 1e-3`. -/
theorem c1_witness :
    ('m', (1 : Rat) / 1000) ∈ siFactors ∧ parseFloat "7.000000" = some 7 ∧
      decode (("7.000000".push 'm').push 'V') = .ok (7 * ((1 : Rat) / 1000)) := by
  have hm : ('m', (1 : Rat) / 1000) ∈ siFactors := by simp [siFactors]
  have hx : parseFloat "7.000000" = some 7 := by
    simp [parseFloat, parseFloatCore, parseExpOpt, parseExpTail, digitsVal,
      fracVal, pow10]
  exact ⟨hm, hx, c1_decode_inverts_si_encoding "7.000000" 7 'm' ((1 : Rat) / 1000) 'V' hm hx⟩

/-- C4: when the second-to-last character of the payload is neither a digit
nor a recognized SI prefix, the decode step raises `ValueError` after printing
the raw offending token (modelled by `.decodeError ans`), and never returns
any value (`0`, the unscaled mantissa, or otherwise). -/
theorem c4_unrecognized_si_char_decode_error (ans : String) (c : Char)
    (h1 : secondToLast? ans = some c) (h2 : c.isDigit = false)
    (h3 : lookupFactor c siFactors = none) :
    decode ans = .decodeError ans ∧ ∀ v : Rat, decode ans ≠ .ok v := by
  have hd : decode ans = .decodeError ans := by
    cases hpf : parseFloat (dropLast2 ans) <;> simp [decode, h1, h2, h3, hpf]
  exact ⟨hd, fun v => by simp [hd]⟩

/-- C4 witness: `"7.000000qV"` (unrecognized prefix `q`) decodes to the
error carrying the raw token. -/
theorem c4_witness :
    secondToLast? "7.000000qV" = some 'q' ∧ Char.isDigit 'q' = false ∧
      lookupFactor 'q' siFactors = none ∧
      decode "7.000000qV" = .decodeError "7.000000qV" ∧
      ∀ v : Rat, decode "7.000000qV" ≠ .ok v := by
  refine ⟨rfl, rfl, rfl, ?_⟩
  exact c4_unrecognized_si_char_decode_error "7.000000qV" 'q' rfl rfl rfl

/-- C6: when the second-to-last character of the payload is a digit, the
decode step returns exactly `float(token[:-2])`, with no magnitude scaling. -/
theorem c6_digit_branch_unscaled (ans : String) (c : Char) (x : Rat)
    (h1 : secondToLast? ans = some c) (h2 : c.isDigit = true)
    (h3 : parseFloat (dropLast2 ans) = some x) :
    decode ans = .ok x := by
  simp [decode, h1, h2, h3]

/-- C6 witness: `"295.3K"` has digit `'3'` second-to-last; the decode step
returns `float("295.")` = 295 exactly (the final two characters stripped). -/
theorem c6_witness :
    secondToLast? "295.3K" = some '3' ∧ Char.isDigit '3' = true ∧
      parseFloat (dropLast2 "295.3K") = some 295 ∧
      decode "295.3K" = .ok 295 := by
  have h3 : parseFloat (dropLast2 "295.3K") = some 295 := by
    simp [dropLast2, parseFloat, parseFloatCore, parseExpOpt, parseExpTail,
      digitsVal, fracVal, pow10]
  exact ⟨rfl, rfl, h3, c6_digit_branch_unscaled "295.3K" '3' 295 rfl rfl h3⟩

/-- C10: the decode step is only total for payloads of length at least 2; on
any shorter payload the access `ans[-2]` fails with `IndexError`, which is
not the `ValueError`/`DecodeError` path, before any prefix classification. -/
theorem c10_short_payload_index_error (ans : String)
    (h : ans.data.length < 2) :
    decode ans = .indexError ∧ ∀ t : String, decode ans ≠ .decodeError t := by
  have h2 : secondToLast? ans = none := by
    unfold secondToLast?
    rcases hr : ans.data.reverse with _ | ⟨a, _ | ⟨b, tl⟩⟩
    · rfl
    · rfl
    · exfalso
      have hlen : ans.data.length = tl.length + 2 := by
        simpa using congrArg List.length hr
      omega
  have hd : decode ans = .indexError := by simp [decode, h2]
  exact ⟨hd, fun t => by simp [hd]⟩

/-- C10 witness: the one-character payload `"V"` hits `IndexError`. -/
theorem c10_witness :
    ("V" : String).data.length < 2 ∧ decode "V" = .indexError := by
  refine ⟨by decide, (c10_short_payload_index_error "V" (by decide)).1⟩

/-- C7: response parsing takes the last colon-delimited field for every raw
line: on the concrete echoed line of the spec it returns exactly the trailing
field, and for every raw line of the form `fields ++ ":" ++ payload` with a
colon-free payload it returns `payload`, with no validation of the echoed
fields before it. -/
theorem c7_parse_last_field :
    parseResponse "STAT:SET:DEV:DB7.T1:TEMP:SIG:VOLT:7.000000m V" =
        "7.000000m V" ∧
      ∀ pre payload : String, ':' ∉ payload.data →
        parseResponse (pre ++ ":" ++ payload) = payload := by
  constructor
  · decide
  · intro pre payload h
    have hdata : (pre ++ ":" ++ payload).data = pre.data ++ ':' :: payload.data := by
      show (pre.data ++ [':']) ++ payload.data = _
      simp
    unfold parseResponse
    rw [hdata, lastField_splitCh_sep, splitCh_no_sep ':' payload.data h]
    rfl

/-- C7 witness: applying the general clause to the spec's echoed line. -/
theorem c7_witness :
    ':' ∉ ("7.000000m V" : String).data ∧
      parseResponse ("STAT:SET:DEV:DB7.T1:TEMP:SIG:VOLT" ++ ":" ++ "7.000000m V") =
        "7.000000m V" := by
  refine ⟨by decide, ?_⟩
  exact c7_parse_last_field.2 "STAT:SET:DEV:DB7.T1:TEMP:SIG:VOLT" "7.000000m V"
    (by decide)

/-- C9: for a device key absent from the registry, `getSignal` fails with
`KeyError` identifying the bad key (`UnknownDeviceError`), on both transport
variants, before any command is sent (the transport trace is empty, so there
is no attempt and no retry). -/
theorem c9_unknown_device (d : String) (h : lookupDevice d devices = none)
    (sig : String) (respond : String → String) (attempts : Nat → AttemptEnv) :
    getSignalSerial d sig respond = ([], .unknownDevice d) ∧
      getSignalEth d sig attempts = ([], .unknownDevice d) := by
  constructor <;> simp [getSignalSerial, getSignalEth, h]

/-- C9 witness: the key `"db5"` is not registered; `getSignal` returns the
unknown-device error with empty trace on both variants. -/
theorem c9_witness :
    lookupDevice "db5" devices = none ∧
      getSignalSerial "db5" "TEMP" (fun _ => "") = ([], .unknownDevice "db5") ∧
      getSignalEth "db5" "TEMP" attGood = ([], .unknownDevice "db5") := by
  refine ⟨by decide, ?_, ?_⟩
  · exact (c9_unknown_device "db5" (by decide) "TEMP" (fun _ => "") attGood).1
  · exact (c9_unknown_device "db5" (by decide) "TEMP" (fun _ => "") attGood).2

/-- C2: on the per-call variant, if all 5 connection attempts of a read fail,
`readValue` exits the process (`none`: `sys.exit` after printing
"Communication failed 5 times, aborting"), and `getSignal` accordingly ends
in the fatal-communication outcome, never returning any value. -/
theorem c2_exhausted_retries_fatal (cmd sig : String)
    (attempts : Nat → AttemptEnv)
    (h : ∀ i, i < 5 → attemptOutcome (attempts i) = none) :
    (readValueEth cmd attempts).2 = none ∧
      (getSignalEth "db7" sig attempts).2 = .commFatal ∧
      ∀ v : Rat, (getSignalEth "db7" sig attempts).2 ≠ .ok v := by
  have hnone : ∀ cmd' : String, (readValueEth cmd' attempts).2 = none := by
    intro cmd'
    rw [readValueEth, readEthRun_none_iff]
    intro i hi
    apply h
    simp at hi
    omega
  have hdb7 : lookupDevice "db7" devices = some "DEV:DB7.T1:TEMP" := by decide
  have hg : (getSignalEth "db7" sig attempts).2 = .commFatal := by
    simp only [getSignalEth, hdb7]
    rw [hnone]
  exact ⟨hnone cmd, hg, fun v => by simp [hg]⟩

/-- C2 witness: the all-fail stub makes the read fatal with no value. -/
theorem c2_witness :
    (∀ i, i < 5 → attemptOutcome (attAllFail i) = none) ∧
      (readValueEth "READ:SYS:CAT" attAllFail).2 = none ∧
      (getSignalEth "db7" "TEMP" attAllFail).2 = .commFatal := by
  have h : ∀ i, i < 5 → attemptOutcome (attAllFail i) = none := fun i _ => rfl
  exact ⟨h, (c2_exhausted_retries_fatal "READ:SYS:CAT" "TEMP" attAllFail h).1,
    (c2_exhausted_retries_fatal "READ:SYS:CAT" "TEMP" attAllFail h).2.1⟩

/-- C3: on the per-call variant, when the first 4 attempts fail and the 5th
succeeds with payload `s`, `readValue` returns `s` from attempt index 4 (so
exactly 5 connection attempts were made), one fixed back-off followed each of
the 4 failed attempts, at most 5 attempts are ever made for any single
command, and `getSignal` returns the correctly decoded value. -/
theorem c3_recovery_on_fifth_attempt (cmd sig : String)
    (attempts : Nat → AttemptEnv) (s : String) (v : Rat)
    (hfail : ∀ i, i < 4 → attemptOutcome (attempts i) = none)
    (hok : attemptOutcome (attempts 4) = some s)
    (hdec : decode (parseResponse s) = .ok v) :
    (readValueEth cmd attempts).2 = some (4, s) ∧
      ethAttemptCount cmd attempts = 5 ∧
      backoffCount (readValueEth cmd attempts).1 = 4 ∧
      (∀ att : Nat → AttemptEnv, ethAttemptCount cmd att ≤ 5) ∧
      (getSignalEth "db7" sig attempts).2 = .ok v := by
  have h0 := hfail 0 (by norm_num)
  have h1 := hfail 1 (by norm_num)
  have h2 := hfail 2 (by norm_num)
  have h3 := hfail 3 (by norm_num)
  have hres : ∀ cmd' : String, (readValueEth cmd' attempts).2 = some (4, s) := by
    intro cmd'
    simp [readValueEth, readEthRun, h0, h1, h2, h3, hok]
  refine ⟨hres cmd, ?_, ?_, ?_, ?_⟩
  · simp [ethAttemptCount, hres cmd]
  · simp only [readValueEth, readEthRun, h0, h1, h2, h3, hok]
    rw [backoffCount_append, backoffCount_append, backoffCount_append,
      backoffCount_append,
      backoff_one_of_fail cmd 0 _ h0, backoff_one_of_fail cmd 1 _ h1,
      backoff_one_of_fail cmd 2 _ h2, backoff_one_of_fail cmd 3 _ h3,
      backoff_zero_of_ok cmd 4 _ s hok]
  · intro att
    unfold ethAttemptCount
    cases hr : (readValueEth cmd att).2 with
    | none => norm_num
    | some kd =>
      obtain ⟨k, d⟩ := kd
      have hpair : readEthRun cmd att [0, 1, 2, 3, 4] =
          ((readValueEth cmd att).1, (readValueEth cmd att).2) := rfl
      rw [hr] at hpair
      have hk := (readEthRun_some cmd att [0, 1, 2, 3, 4]
        (readValueEth cmd att).1 k d hpair).1
      simp at hk
      show k + 1 ≤ 5
      omega
  · have hdb7 : lookupDevice "db7" devices = some "DEV:DB7.T1:TEMP" := by decide
    simp only [getSignalEth, hdb7]
    rw [hres]
    simp [hdec, liftDecode]

/-- C3 witness: the fail-4-then-succeed stub yields the decoded value with
exactly 5 attempts and 4 back-offs. -/
theorem c3_witness :
    attemptOutcome (attFourFail 4) = some "7.000000mV" ∧
      (readValueEth "READ:SYS:CAT" attFourFail).2 = some (4, "7.000000mV") ∧
      ethAttemptCount "READ:SYS:CAT" attFourFail = 5 ∧
      backoffCount (readValueEth "READ:SYS:CAT" attFourFail).1 = 4 ∧
      (getSignalEth "db7" "TEMP" attFourFail).2 = .ok (7 * ((1 : Rat) / 1000)) := by
  have hfail : ∀ i, i < 4 → attemptOutcome (attFourFail i) = none := by
    intro i hi
    simp [attFourFail, hi, attemptOutcome]
  have hok : attemptOutcome (attFourFail 4) = some "7.000000mV" := rfl
  have hdec : decode (parseResponse "7.000000mV") = .ok (7 * ((1 : Rat) / 1000)) := by
    have hpr : parseResponse "7.000000mV" = "7.000000mV" := by decide
    rw [hpr]
    simp [decode, secondToLast?, dropLast2, parseFloat, parseFloatCore,
      parseExpOpt, parseExpTail, digitsVal, fracVal, pow10, siFactors,
      microChar, lookupFactor]
  have h := c3_recovery_on_fifth_attempt "READ:SYS:CAT" "TEMP" attFourFail
    "7.000000mV" (7 * ((1 : Rat) / 1000)) hfail hok hdec
  exact ⟨hok, h.1, h.2.1, h.2.2.1, h.2.2.2.2⟩

/-- C5 counterexample: a SET write whose `sendall` fails terminates the
process immediately (`sys.exit`, line 207): `writeValue` has no retry loop,
so the failure does not consume one of 5 attempts, no back-off occurs, and
the command does not recover — contrary to the claim that send failures are
handled like read receive failures for every command including SET writes. -/
theorem c5_counterexample_set_write_send_failure_exits :
    setValueEth "DEV:MB1.T1:TEMP:LOOP:TSET:300"
        ⟨false, false, true, none⟩ = ([EthEvent.connect 0], .exitSend) ∧
      WriteOutcome.exitSend ≠ WriteOutcome.done ∧
      backoffCount (setValueEth "DEV:MB1.T1:TEMP:LOOP:TSET:300"
        ⟨false, false, true, none⟩).1 = 0 := by
  exact ⟨rfl, by decide, rfl⟩

/-- C5 (amended): on the per-call variant, READ commands are retried: an
attempt fails exactly on a socket-creation, connect, or receive failure; each
failed attempt is followed by one fixed back-off; the call is fatal exactly
when all 5 attempts fail; a send failure during a read attempt is caught and
the attempt proceeds to the receive. SET writes have no retry: a
socket-creation failure or a send failure terminates the process immediately,
and a write trace never contains a back-off. -/
theorem c5_retry_semantics_amended :
    (∀ a : AttemptEnv, attemptOutcome a = none ↔
      (a.createFails = true ∨ a.connectFails = true ∨ a.recvResult = none)) ∧
    (∀ cmd : String, ∀ att : Nat → AttemptEnv,
      ((readValueEth cmd att).2 = none ↔
        ∀ i, i < 5 → attemptOutcome (att i) = none)) ∧
    (∀ (cmd : String) (i : Nat) (a : AttemptEnv), attemptOutcome a = none →
      backoffCount (readAttemptEvents cmd i a) = 1) ∧
    (∀ d : String, attemptOutcome ⟨false, false, true, some d⟩ = some d) ∧
    (∀ a : AttemptEnv,
      (a.createFails = true → writeValueEth a = .exitCreate) ∧
      (a.createFails = false → a.connectFails = false → a.sendFails = true →
        writeValueEth a = .exitSend)) ∧
    (∀ (cmd : String) (a : AttemptEnv), EthEvent.backoff ∉ writeTraceEth cmd a) := by
  refine ⟨?_, ?_, ?_, ?_, ?_, ?_⟩
  · intro a
    unfold attemptOutcome
    by_cases hc : a.createFails ∨ a.connectFails
    · simp only [if_pos hc]
      constructor
      · intro _
        rcases hc with hc | hc
        · exact Or.inl hc
        · exact Or.inr (Or.inl hc)
      · intro _; trivial
    · simp only [if_neg hc]
      push_neg at hc
      simp only [Bool.not_eq_true] at hc
      simp [hc.1, hc.2]
  · intro cmd att
    rw [readValueEth, readEthRun_none_iff]
    constructor
    · intro hall i hi
      apply hall
      simp
      omega
    · intro hall i hi
      apply hall
      simp at hi
      omega
  · exact fun cmd i a h => backoff_one_of_fail cmd i a h
  · intro d; rfl
  · intro a
    constructor
    · intro h; simp [writeValueEth, h]
    · intro h1 h2 h3; simp [writeValueEth, h1, h2, h3]
  · intro cmd a
    unfold writeTraceEth
    by_cases h1 : a.createFails
    · simp [h1]
    · by_cases h2 : a.connectFails
      · simp [h1, h2]
      · by_cases h3 : a.sendFails <;> simp [h1, h2, h3]

/-- C5 witness for the amended claim: a read attempt whose socket creation
fails produces no data and exactly one back-off. -/
theorem c5_witness :
    attemptOutcome ⟨true, false, false, none⟩ = none ∧
      backoffCount (readAttemptEvents "READ:SYS:CAT" 0
        ⟨true, false, false, none⟩) = 1 := by
  exact ⟨rfl, c5_retry_semantics_amended.2.2.1 "READ:SYS:CAT" 0
    ⟨true, false, false, none⟩ rfl⟩

/-- C8: commands and responses are paired 1:1 over the connection that sent
the command.  Serial variant: `readValue` and `setValue` each produce a
strictly alternating send/receive trace (SET reads and discards one
acknowledgement), alternation is preserved under sequencing, and every
`getSignal` trace alternates.  Per-call variant: when `readValue` returns
data from attempt `k`, that data was received on connection `k` — the same
fresh connection over which that attempt sent the command (the send event
carries connection id `k` whenever the attempt's send succeeded). -/
theorem c8_command_response_pairing :
    (∀ pre v : String, alternating (readValueTrace pre v) = true) ∧
    (∀ v : String, alternating (setValueTrace v) = true) ∧
    (∀ t1 t2 : List SerialEvent, alternating t1 = true → alternating t2 = true →
      alternating (t1 ++ t2) = true) ∧
    (∀ (d s : String) (r : String → String),
      alternating (getSignalSerial d s r).1 = true) ∧
    (∀ (cmd : String) (att : Nat → AttemptEnv) (k : Nat) (data : String),
      (readValueEth cmd att).2 = some (k, data) →
        EthEvent.recv k data ∈ (readValueEth cmd att).1 ∧
        ((att k).sendFails = false → EthEvent.send k cmd ∈ (readValueEth cmd att).1) ∧
        (att k).recvResult = some data) := by
  refine ⟨?_, ?_, ?_, ?_, ?_⟩
  · intro pre v; rfl
  · intro v; rfl
  · intro t1 t2 h1 h2; exact alternating_append h2 t1 h1
  · intro d s r
    cases h : lookupDevice d devices with
    | none => simp [getSignalSerial, h, alternating]
    | some addr => simp [getSignalSerial, h, readValueTrace, writeValueTrace, alternating]
  · intro cmd att k data hres
    have hpair : readEthRun cmd att [0, 1, 2, 3, 4] =
        ((readValueEth cmd att).1, (readValueEth cmd att).2) := rfl
    rw [hres] at hpair
    have hs := readEthRun_some cmd att [0, 1, 2, 3, 4]
      (readValueEth cmd att).1 k data hpair
    have hrecv : (att k).recvResult = some data := by
      have ho := hs.2.1
      unfold attemptOutcome at ho
      by_cases hc : (att k).createFails ∨ (att k).connectFails
      · simp [hc] at ho
      · simpa [hc] using ho
    exact ⟨hs.2.2.1, hs.2.2.2, hrecv⟩

/-- C8 witness: with an always-succeeding stub, the data returned by
`readValue` was received on connection 0, over which the command was sent. -/
theorem c8_witness :
    (readValueEth "READ:SYS:CAT" attGood).2 = some (0, "7.000000mV") ∧
      EthEvent.recv 0 "7.000000mV" ∈ (readValueEth "READ:SYS:CAT" attGood).1 ∧
      EthEvent.send 0 "READ:SYS:CAT" ∈ (readValueEth "READ:SYS:CAT" attGood).1 := by
  have hres : (readValueEth "READ:SYS:CAT" attGood).2 = some (0, "7.000000mV") := rfl
  have h := c8_command_response_pairing.2.2.2.2 "READ:SYS:CAT" attGood 0
    "7.000000mV" hres
  exact ⟨hres, h.1, h.2.1 rfl⟩

end MercuryITC
